import Mathlib

/-!
Shallow embedding of the job ingestion-and-filtering core of
`src/upwork_apify_scraper.py` (functions `filter_jobs` and `transform_job`),
together with theorems settling the specification claims about it.

Python values flowing through the pipeline are modelled by `JVal`
(JSON-like data: `None`, booleans, numbers, strings, lists, dicts).
Python numbers (int and float) are modelled together as exact rationals;
no claim below depends on int/float distinctions or float rounding.
Operations that can raise in Python (attribute access on non-dicts,
`in` on non-containers, `.lower()` on non-strings) return `Except PyErr`.
-/

namespace Upwork

/-- A Python/JSON value as it appears in a scraped job record. -/
inductive JVal where
  | null
  | bool (b : Bool)
  | num (q : ℚ)
  | str (s : String)
  | arr (xs : List JVal)
  | obj (kvs : List (String × JVal))

/-- Exceptions the embedded code can raise
(AttributeError from `.get`/`.lower` on the wrong type,
TypeError from `in` on a non-container). -/
inductive PyErr where
  | attributeError
  | typeError
deriving DecidableEq

/-- Python truthiness: `None`, `False`, `0`, `""`, `[]`, `{}` are falsy. -/
def pyTruthy : JVal → Bool
  | .null => false
  | .bool b => b
  | .num q => ¬ (q = 0)
  | .str s => ¬ (s = "")
  | .arr [] => false
  | .arr (_ :: _) => true
  | .obj [] => false
  | .obj (_ :: _) => true

/-- First binding of key `k` in an association list (dict lookup). -/
def lookupKV (kvs : List (String × JVal)) (k : String) : Option JVal :=
  match kvs with
  | [] => none
  | (k2, v) :: rest => if k2 = k then some v else lookupKV rest k

/-- `d.get(k)` returning `some v` when the key is present;
raises AttributeError when the receiver is not a dict. -/
def getOpt (v : JVal) (k : String) : Except PyErr (Option JVal) :=
  match v with
  | .obj kvs => .ok (lookupKV kvs k)
  | _ => .error .attributeError

/-- `d.get(k)`: missing keys yield `None`. -/
def pyGet (v : JVal) (k : String) : Except PyErr JVal :=
  (getOpt v k).map (fun o => o.getD .null)

/-- `d.get(k, default)`: missing keys yield the default
(a present key bound to `None` still yields `None`). -/
def pyGetD (v : JVal) (k : String) (d : JVal) : Except PyErr JVal :=
  (getOpt v k).map (fun o => o.getD d)

/-- `a or b` on already-evaluated operands: `a` if truthy, else `b`.
The second operand is an `Except` so that an error in it surfaces only
when Python would evaluate it. -/
def pyOr2 (a : Except PyErr JVal) (b : Except PyErr JVal) : Except PyErr JVal := do
  let va ← a
  if pyTruthy va then pure va else b

/-- Characters stripped by `str.strip()` and by `float()` (ASCII whitespace). -/
def isPySpace (c : Char) : Bool :=
  c = ' ' || c = '\t' || c = '\n' || c = '\r' || c = '\x0b' || c = '\x0c'

/-- `s.strip()`. -/
def pyStrip (s : String) : String :=
  String.mk (((s.toList.dropWhile isPySpace).reverse.dropWhile isPySpace).reverse)

/-- Substring test, as in the Python expression `needle in hay`. -/
def strContains (hay needle : String) : Bool :=
  (List.range (hay.toList.length + 1)).any
    (fun i => needle.toList.isPrefixOf (hay.toList.drop i))

/-- `s.lower()` (ASCII case mapping; the records' field values are ASCII). -/
def pyToLower (s : String) : String :=
  String.mk (s.toList.map Char.toLower)

/-- `sep.join(parts)`. -/
def joinSep (sep : String) : List String → String
  | [] => ""
  | [x] => x
  | x :: xs => x ++ sep ++ joinSep sep xs

/-- `s.replace(ch, "")`: removal of every occurrence of one character — the
only form of `str.replace` the filter uses (`","` and `"$"`). -/
def removeChar (ch : Char) (s : String) : String :=
  String.mk (s.toList.filter (fun c => c != ch))

/-- `s.split(ch)` for a one-character separator — the only form of
`str.split` the transform uses (`"~"`). Mirrors Python: the result is
nonempty, and separators at the ends produce empty fields. -/
def splitOnCharList (ch : Char) : List Char → List (List Char)
  | [] => [[]]
  | c :: cs =>
    if c = ch then [] :: splitOnCharList ch cs
    else
      match splitOnCharList ch cs with
      | [] => [[c]]
      | g :: gs => (c :: g) :: gs

/-- `s.split(ch)` on strings. -/
def pySplit (s : String) (ch : Char) : List String :=
  (splitOnCharList ch s.toList).map String.mk

/-- One character of a Python string repr, escaped relative to the active
quote character (control characters beyond these are left unescaped; no
claim depends on them). -/
def pyEscapeChar (quote : Char) (c : Char) : String :=
  if c = '\\' then "\\\\"
  else if c = quote then "\\" ++ String.mk [quote]
  else if c = '\n' then "\\n"
  else if c = '\r' then "\\r"
  else if c = '\t' then "\\t"
  else String.mk [c]

/-- Python `repr` of a string: single-quoted, switching to double quotes when
the string contains a single quote but no double quote, as CPython does. -/
def quoteStr (s : String) : String :=
  let sq : Char := '\x27'
  let dq : Char := '"'
  let q := if s.toList.contains sq && !(s.toList.contains dq) then dq else sq
  String.mk [q] ++ joinSep "" (s.toList.map (pyEscapeChar q)) ++ String.mk [q]

/-- Rendering of a number. CPython prints floats with the shortest
round-tripping decimal; we print integral rationals exactly as CPython
prints ints and fall back to a fraction otherwise. No claim depends on the
non-integral case: the filter only inspects number renderings through the
reject-phrase test, and neither form can contain a space or a digit
followed by a plus sign, exactly as in CPython. -/
def qRepr (q : ℚ) : String :=
  if q.den = 1 then toString q.num
  else toString q.num ++ "/" ++ toString q.den

mutual

/-- Python `repr` of a value (used for elements of containers). -/
def pyRepr : JVal → String
  | .null => "None"
  | .bool true => "True"
  | .bool false => "False"
  | .num q => qRepr q
  | .str s => quoteStr s
  | .arr xs => "[" ++ joinSep ", " (pyReprList xs) ++ "]"
  | .obj kvs => "\x7b" ++ joinSep ", " (pyReprKVs kvs) ++ "\x7d"

/-- The reprs of the elements of a list value. -/
def pyReprList : List JVal → List String
  | [] => []
  | v :: vs => pyRepr v :: pyReprList vs

/-- The `key: value` reprs of the entries of a dict value. -/
def pyReprKVs : List (String × JVal) → List String
  | [] => []
  | (k, v) :: kvs => (quoteStr k ++ ": " ++ pyRepr v) :: pyReprKVs kvs

end

/-- Python `str()` of a value: a string is itself, anything else its repr. -/
def pyStr : JVal → String
  | .str s => s
  | v => pyRepr v

/-- The result of Python `float()`: a finite value, an infinity, or NaN. -/
inductive PyFloat where
  | nan
  | inf
  | ninf
  | val (q : ℚ)
deriving DecidableEq

/-- Continuation of a digit run after its first digit: digits with single
underscores allowed between digits. -/
def digitRunTail : List Char → Bool
  | [] => true
  | '_' :: c :: cs => c.isDigit && digitRunTail cs
  | c :: cs => c.isDigit && digitRunTail cs

/-- A valid CPython digit run `D(_?D)*`: nonempty, underscores only between
two digits. -/
def digitRunOk : List Char → Bool
  | [] => false
  | c :: cs => c.isDigit && digitRunTail cs

/-- Consume the maximal run of digits and underscores. If it is a valid
CPython digit run, return it (underscores removed) with the rest; otherwise
consume nothing, which makes the enclosing literal parse fail just as
CPython rejects a misplaced underscore. -/
def takeDigitsU (cs : List Char) : List Char × List Char :=
  let raw := cs.takeWhile (fun c => c.isDigit || c = '_')
  if digitRunOk raw then
    (raw.filter (fun c => c != '_'), cs.dropWhile (fun c => c.isDigit || c = '_'))
  else ([], cs)

/-- Decimal digits to a natural number. -/
def digitsToNat (ds : List Char) : Nat :=
  ds.foldl (fun a c => a * 10 + (c.toNat - 48)) 0

/-- The exponent part of a float literal, after the `e`: optional sign and a
nonempty digit run consuming the whole rest. -/
def parseExpDigits (cs : List Char) : Option ℤ :=
  let (neg, body) :=
    match cs with
    | '+' :: r => (false, r)
    | '-' :: r => (true, r)
    | r => (false, r)
  match takeDigitsU body with
  | ([], _) => none
  | (ds, []) => some (if neg then -(digitsToNat ds : ℤ) else (digitsToNat ds : ℤ))
  | (_, _ :: _) => none

/-- The exact rational `m * 10^e` denoted by a decimal mantissa `m` and a
power-of-ten exponent `e`. -/
def decToRat (m : ℤ) (e : ℤ) : ℚ :=
  if 0 ≤ e then ((m * 10 ^ e.toNat : ℤ) : ℚ)
  else Rat.divInt m (10 ^ (-e).toNat)

/-- An unsigned float literal: `digits [. digits] [exp]` or `. digits [exp]`,
with at least one mantissa digit, mirroring CPython `float()`. The denoted
value is `(integer-and-fraction digits) * 10^(exp - number of fraction
digits)`. -/
def parsePyFloatBody (cs : List Char) : Option ℚ :=
  let (ip, r1) := takeDigitsU cs
  let (fp, r2) :=
    match r1 with
    | '.' :: rest => takeDigitsU rest
    | _ => ([], r1)
  if ip.isEmpty && fp.isEmpty then none
  else
    let m : ℤ := (digitsToNat (ip ++ fp) : ℤ)
    match r2 with
    | [] => some (decToRat m (-(fp.length : ℤ)))
    | e :: rest =>
      if e = 'e' || e = 'E' then
        match parseExpDigits rest with
        | some ex => some (decToRat m (ex - (fp.length : ℤ)))
        | none => none
      else none

/-- CPython `float(s)`: strip whitespace, optional sign, then an infinity,
a NaN, or a decimal literal; `none` models `ValueError`. -/
def pyFloat (s : String) : Option PyFloat :=
  let cs := ((s.toList.dropWhile isPySpace).reverse.dropWhile isPySpace).reverse
  let (neg, body) :=
    match cs with
    | '+' :: r => (false, r)
    | '-' :: r => (true, r)
    | r => (false, r)
  let low := body.map Char.toLower
  if low = ['i', 'n', 'f'] || low = ['i', 'n', 'f', 'i', 'n', 'i', 't', 'y'] then
    some (if neg then .ninf else .inf)
  else if low = ['n', 'a', 'n'] then some .nan
  else
    match parsePyFloatBody body with
    | some q => some (.val (if neg then -q else q))
    | none => none

/-- The comparison `total_spent < min_spent` under IEEE semantics:
NaN compares false, as does positive infinity. -/
def pyFloatLt (a : PyFloat) (m : ℚ) : Bool :=
  match a with
  | .nan => false
  | .inf => false
  | .ninf => true
  | .val q => decide (q < m)

/-- `float(str(total_spent).replace(",", "").replace("$", ""))` with the
enclosing `except` clause mapping any failure to `0`. For a value that is
already a number, `float(str(x))` round-trips it exactly (its rendering
contains no comma or dollar sign), so that case is the identity. -/
def coerceSpend (v : JVal) : PyFloat :=
  match v with
  | .num q => .val q
  | _ =>
    match pyFloat (removeChar '$' (removeChar ',' (pyStr v))) with
    | some f => f
    | none => .val 0

/-- `total_spent or 0`. -/
def orZero (v : JVal) : JVal :=
  if pyTruthy v then v else .num 0

/-- The Python membership test `k in v` for a string key: substring test on
strings, element equality on lists, key containment on dicts, TypeError on
scalars. -/
def pyInKey (k : String) (v : JVal) : Except PyErr Bool :=
  match v with
  | .str s => .ok (strContains s k)
  | .arr xs => .ok (xs.any (fun x => match x with | .str s => s = k | _ => false))
  | .obj kvs => .ok ((lookupKV kvs k).isSome)
  | _ => .error .typeError

/-- `v.lower()`: AttributeError unless the receiver is a string. -/
def pyLower (v : JVal) : Except PyErr String :=
  match v with
  | .str s => .ok (pyToLower s)
  | _ => .error .attributeError

/-- `v is True`. -/
def isTrueLit : JVal → Bool
  | .bool true => true
  | _ => false

/-- `v == lit` for a string literal: Python equality between a value of
unknown type and a string is `False` unless the value is that string. -/
def eqStrLit (v : JVal) (lit : String) : Bool :=
  match v with
  | .str s => s = lit
  | _ => false

/-!
The per-rule pieces of `filter_jobs`, in source order (lines 157-224).
-/

/-- Line 160: `job.get("postedDate") or job.get("date_created") or
job.get("createdAt")`. The result is bound but never used by the filter. -/
def resolvePostedDate (job : JVal) : Except PyErr JVal :=
  pyOr2 (pyGet job "postedDate") (pyOr2 (pyGet job "date_created") (pyGet job "createdAt"))

/-- Lines 171-178: the payment-verification test. `True` means the job
survives the rule. Mirrors
`job.get("isPaymentVerified") or client.get("paymentMethodVerified") is True
or client.get("paymentVerificationStatus") == "VERIFIED"`, including the
short-circuit that skips the client reads when the first operand is truthy. -/
def paymentVerifiedCheck (job : JVal) : Except PyErr Bool := do
  let client ← pyGetD job "client" (.obj [])
  let ipv ← pyGet job "isPaymentVerified"
  if pyTruthy ipv then pure true
  else do
    let pmv ← pyGet client "paymentMethodVerified"
    if isTrueLit pmv then pure true
    else do
      let pvs ← pyGet client "paymentVerificationStatus"
      pure (eqStrLit pvs "VERIFIED")

/-- Lines 183-186: the raw total-spent resolution inside the spend rule:
top-level `client["totalSpent"]`, falling back to `stats["totalSpent"]`
only when that is `None` and a `stats` key exists. -/
def resolveSpentFilter (client : JVal) : Except PyErr JVal := do
  let ts ← pyGet client "totalSpent"
  match ts with
  | .null => do
    let hasStats ← pyInKey "stats" client
    if hasStats then do
      let stats ← pyGetD client "stats" (.obj [])
      pyGet stats "totalSpent"
    else pure .null
  | v => pure v

/-- Lines 181-198: the minimum-spend rule. `True` means the job survives. -/
def spendRule (min_spent : ℚ) (job : JVal) : Except PyErr Bool := do
  if min_spent > 0 then do
    let client ← pyGetD job "client" (.obj [])
    let ts ← resolveSpentFilter client
    let c := coerceSpend (orZero ts)
    pure (! pyFloatLt c min_spent)
  else pure true

/-- Line 202: `job.get("experienceLevel") or
job.get("vendor", {}).get("experienceLevel")`, evaluated unconditionally
once the spend rule passes. -/
def resolveJobLevel (job : JVal) : Except PyErr JVal :=
  pyOr2 (pyGet job "experienceLevel")
    (do
      let vendor ← pyGetD job "vendor" (.obj [])
      pyGet vendor "experienceLevel")

/-- Lines 204-208: the experience-level rule applied to the resolved level.
`True` means the job survives. -/
def expRule (experience_levels : List String) (job_level : JVal) : Except PyErr Bool :=
  match experience_levels with
  | [] => pure true
  | _ :: _ =>
    if pyTruthy job_level then do
      let permitted := experience_levels.map (fun l => pyToLower (pyStrip l))
      let lv ← pyLower job_level
      pure (permitted.contains lv)
    else pure true

/-- Line 214: `job.get("proposals") or job.get("proposalCount")`. -/
def resolveProposals (job : JVal) : Except PyErr JVal :=
  pyOr2 (pyGet job "proposals") (pyGet job "proposalCount")

/-- Line 218: the high-competition bucket phrases. -/
def rejectPhrases : List String := ["15 to 20", "20 to 50", "50+"]

/-- Lines 216-222: the competition rule applied to the resolved proposal
count; never raises. `True` means the job survives. -/
def competitionPass (proposals : JVal) : Bool :=
  if pyTruthy proposals then
    if rejectPhrases.any (fun phrase => strContains (pyStr proposals) phrase) then false
    else
      -- `isinstance(proposals, (int, float)) and proposals >= 15`; a Python
      -- bool is an int instance, but both bool values are < 15, so matching
      -- only `num` here decides identically.
      match proposals with
      | .num q => decide (q < 15)
      | _ => true
  else true

/-- Lines 170-178 as one step: the payment rule is evaluated only when
`verified_payment` is set; otherwise it trivially passes. -/
def paymentStep (verified_payment : Bool) (job : JVal) : Except PyErr Bool :=
  if verified_payment then paymentVerifiedCheck job else pure true

/-- One iteration of the loop body of `filter_jobs` (lines 157-224):
`ok true` admits the job, `ok false` is a `continue`, an error is an
uncaught exception aborting the whole call. -/
def jobPass (verified_payment : Bool) (min_spent : ℚ) (experience_levels : List String)
    (job : JVal) : Except PyErr Bool := do
  let _posted ← resolvePostedDate job
  let payOk ← paymentStep verified_payment job
  if ! payOk then pure false
  else do
    let spendOk ← spendRule min_spent job
    if ! spendOk then pure false
    else do
      let jobLevel ← resolveJobLevel job
      let expOk ← expRule experience_levels jobLevel
      if ! expOk then pure false
      else do
        let props ← resolveProposals job
        pure (competitionPass props)

/-- The filtering loop: stable, keeping jobs whose `jobPass` is true. -/
def filterLoop (verified_payment : Bool) (min_spent : ℚ) (experience_levels : List String) :
    List JVal → Except PyErr (List JVal)
  | [] => .ok []
  | job :: rest => do
    let keep ← jobPass verified_payment min_spent experience_levels job
    let tail ← filterLoop verified_payment min_spent experience_levels rest
    pure (if keep then job :: tail else tail)

/-- `filter_jobs(jobs, verified_payment, min_spent, experience_levels,
days_back)`. The wall clock `now` and `days_back` only feed the computation
of `cutoff_time` (lines 149-150), which the loop never consults. -/
def filter_jobs (jobs : List JVal) (verified_payment : Bool) (min_spent : ℚ)
    (experience_levels : List String) (days_back : ℤ) (now : ℤ) :
    Except PyErr (List JVal) :=
  let _cutoff_time := now - days_back
  filterLoop verified_payment min_spent experience_levels jobs

/-!
`transform_job` (lines 228-267).
-/

/-- The output contract of `transform_job`: the dict literal of lines
251-267, with its derived `apply_url` (always a string). -/
structure NormalizedJob where
  job_id : JVal
  title : JVal
  description : JVal
  skills : JVal
  budget : JVal
  hourly_rate : JVal
  job_type : JVal
  experience_level : JVal
  client_country : JVal
  client_total_spent : JVal
  client_hires : JVal
  proposal_count : JVal
  posted_date : JVal
  job_url : JVal
  apply_url : String

/-- The fixed apply-URL template of line 249, parameterized by `str(job_id)`. -/
def applyUrlTemplate (idStr : String) : String :=
  "https://www.upwork.com/nx/proposals/job/" ++ idStr ++ "/apply/"

/-- Lines 242-247: when the direct identifier is falsy and the URL is truthy
and contains `"~"`, take the substring after the last `~` re-prefixed with
`~`; the `.split` call sits in a `try`/`except: pass`, so a non-string URL
(whose membership test succeeded, e.g. a list) leaves the identifier
unchanged. -/
def deriveJobId (id0 job_url : JVal) : Except PyErr JVal := do
  if ! pyTruthy id0 && pyTruthy job_url then do
    let hasTilde ← pyInKey "~" job_url
    if hasTilde then
      match job_url with
      | .str u => pure (.str ("~" ++ (pySplit u '~').getLastD ""))
      | _ => pure id0
    else pure id0
  else pure id0

/-- Line 261: `client.get("stats", {}).get("totalSpent") if "stats" in client
else client.get("totalSpent")` — the nested value takes priority whenever a
`stats` key exists (the reverse of the filter's resolution order). -/
def resolveSpentTransform (client : JVal) : Except PyErr JVal := do
  let hasStats ← pyInKey "stats" client
  if hasStats then do
    let stats ← pyGetD client "stats" (.obj [])
    pyGet stats "totalSpent"
  else pyGet client "totalSpent"

/-- Line 262: as `resolveSpentTransform` but for `totalHires`. -/
def resolveHiresTransform (client : JVal) : Except PyErr JVal := do
  let hasStats ← pyInKey "stats" client
  if hasStats then do
    let stats ← pyGetD client "stats" (.obj [])
    pyGet stats "totalHires"
  else pyGet client "totalHires"

/-- `transform_job(job)`, with field computations in source evaluation
order; an error is an uncaught Python exception. -/
def transform_job (job : JVal) : Except PyErr NormalizedJob := do
  let client ← pyGetD job "client" (.obj [])
  let id0 ← pyOr2 (pyGet job "id") (pyGet job "ciphertext")
  let job_url ← pyOr2 (pyGet job "url") (pyGet job "externalLink")
  let job_id ← deriveJobId id0 job_url
  let apply_url := if pyTruthy job_id then applyUrlTemplate (pyStr job_id) else ""
  let title ← pyGet job "title"
  let description ← pyGet job "description"
  let skills ← pyGetD job "skills" (.arr [])
  let budget ← pyGet job "budget"
  let hourly_rate ← pyGet job "hourlyRate"
  let job_type ← pyGet job "jobType"
  let experience_level ← resolveJobLevel job
  let client_country ← do
    let loc ← pyGetD client "location" (.obj [])
    pyOr2 (pyGet loc "country") (pyGet client "countryCode")
  let client_total_spent ← resolveSpentTransform client
  let client_hires ← resolveHiresTransform client
  let proposal_count ← resolveProposals job
  let posted_date ← resolvePostedDate job
  pure { job_id, title, description, skills, budget, hourly_rate, job_type,
         experience_level, client_country, client_total_spent, client_hires,
         proposal_count, posted_date, job_url, apply_url }

/-!
Helper lemmas for inverting `Except` computations.
-/

theorem bind_ok_iff {α β : Type} {x : Except PyErr α} {f : α → Except PyErr β} {b : β} :
    (x >>= f) = .ok b ↔ ∃ a, x = .ok a ∧ f a = .ok b := by
  cases x with
  | ok a =>
    constructor
    · intro h; exact ⟨a, rfl, h⟩
    · rintro ⟨a2, ha, hf⟩
      cases ha
      exact hf
  | error e =>
    constructor
    · intro h; cases h
    · rintro ⟨a2, ha, hf⟩; cases ha

theorem pure_ok_iff {α : Type} {a b : α} :
    (pure a : Except PyErr α) = .ok b ↔ a = b := by
  constructor
  · intro h; cases h; rfl
  · intro h; cases h; rfl

@[simp] theorem ok_bind {α β : Type} (a : α) (f : α → Except PyErr β) :
    (Except.ok a >>= f) = f a := rfl

@[simp] theorem error_bind {α β : Type} (e : PyErr) (f : α → Except PyErr β) :
    ((Except.error e : Except PyErr α) >>= f) = .error e := rfl

@[simp] theorem ok_map {α β : Type} (f : α → β) (a : α) :
    Except.map f (Except.ok a : Except PyErr α) = .ok (f a) := rfl

@[simp] theorem error_map {α β : Type} (f : α → β) (e : PyErr) :
    Except.map f (Except.error e : Except PyErr α) = .error e := rfl

/-- C10: for every list of RawJobRecords and every fixed setting of the
other filter parameters, two runs of `filter_jobs` that differ only in the
`days_back` argument (and in the wall-clock instant) produce identical
results: the computed cutoff time is never consulted by the loop. -/
theorem c10_days_back_has_no_effect (jobs : List JVal) (vp : Bool) (ms : ℚ)
    (els : List String) (d1 d2 now1 now2 : ℤ) :
    filter_jobs jobs vp ms els d1 now1 = filter_jobs jobs vp ms els d2 now2 := rfl

/-- C1: the claim demands that `transform_job` and the field-resolution
reads of `filter_jobs` never raise, even when a field such as `client` is
bound to a non-mapping. The code violates this: with `client` bound to the
number 5, `client.get(...)` raises AttributeError in both functions, so the
record aborts the batch instead of degrading to typed defaults. -/
theorem c1_mistyped_client_raises :
    transform_job (.obj [("client", .num 5)]) = .error .attributeError
    ∧ filter_jobs [.obj [("client", .num 5)]] true 0 [] 1 0 = .error .attributeError :=
  ⟨rfl, rfl⟩

/-- A client mapping carrying both a non-null top-level `totalSpent` (100)
and a nested `stats.totalSpent` (200). -/
def c2client : List (String × JVal) :=
  [("totalSpent", .num 100), ("stats", .obj [("totalSpent", .num 200)])]

/-- A raw job record holding `c2client`. -/
def c2job : JVal := .obj [("client", .obj c2client)]

/-- C2 counterexample: the claim asserts that `transform_job` fills
`client_total_spent` with the client's top-level `totalSpent` whenever it is
present and non-null. On a record where the top-level value is 100 and the
nested `stats.totalSpent` is 200, `transform_job` produces 200: the nested
value wins, so the claimed priority order fails on the transform side. -/
theorem c2_transform_prefers_stats_counterexample :
    pyGet (.obj c2client) "totalSpent" = .ok (.num 100)
    ∧ (transform_job c2job).map (fun nj => nj.client_total_spent) = .ok (.num 200)
    ∧ JVal.num 200 ≠ JVal.num 100 := by
  refine ⟨rfl, rfl, ?_⟩
  intro h
  injection h with h2
  norm_num at h2

/-- C2 amended: the fixed priority order — top-level `totalSpent` whenever
present and non-null, nested `stats.totalSpent` only otherwise — holds where
`filter_jobs` evaluates the minimum-spend rule; `transform_job`, however,
fills `client_total_spent` with the nested `stats.totalSpent` whenever the
client has a `stats` key, and with the top-level value only otherwise. -/
theorem c2_spent_resolution_orders (kvs skvs : List (String × JVal)) (v w : JVal)
    (hv : lookupKV kvs "totalSpent" = some v) (hnn : v ≠ .null)
    (hs : lookupKV kvs "stats" = some (.obj skvs))
    (hw : lookupKV skvs "totalSpent" = some w) :
    resolveSpentFilter (.obj kvs) = .ok v ∧ resolveSpentTransform (.obj kvs) = .ok w := by
  have h1 : pyGet (.obj kvs) "totalSpent" = .ok v := by simp [pyGet, getOpt, hv]
  have h2 : pyInKey "stats" (.obj kvs) = .ok true := by simp [pyInKey, hs]
  have h3 : pyGetD (.obj kvs) "stats" (.obj []) = .ok (.obj skvs) := by
    simp [pyGetD, getOpt, hs]
  have h4 : pyGet (.obj skvs) "totalSpent" = .ok w := by simp [pyGet, getOpt, hw]
  constructor
  · unfold resolveSpentFilter
    rw [h1]
    cases v with
    | null => exact absurd rfl hnn
    | bool b => rfl
    | num q => rfl
    | str s => rfl
    | arr xs => rfl
    | obj o => rfl
  · unfold resolveSpentTransform
    rw [h2]
    simp [h3, h4]

/-- C2 witness: the amended resolution orders evaluated on the concrete
client of the counterexample record. -/
theorem c2_spent_resolution_orders_witness :
    resolveSpentFilter (.obj c2client) = .ok (.num 100)
    ∧ resolveSpentTransform (.obj c2client) = .ok (.num 200) :=
  c2_spent_resolution_orders c2client [("totalSpent", .num 200)] (.num 100) (.num 200)
    rfl (by simp) rfl rfl

/-- C4 counterexample: the claim says the minimum-spend rule coerces the
resolved total spend to a *non-negative* number. The code only strips `,`
and `$` before `float()`: a resolved spend of `"-5"` coerces to the negative
number -5, not to a non-negative one. (The admit/reject decision is
unaffected, since a negative value is below any positive threshold.) -/
theorem c4_negative_coercion_counterexample :
    resolveSpentFilter (.obj [("totalSpent", .str "-5")]) = .ok (.str "-5")
    ∧ coerceSpend (orZero (.str "-5")) = .val (-5)
    ∧ ¬ ((0 : ℚ) ≤ -5) := by
  refine ⟨rfl, ?_, by norm_num⟩
  show coerceSpend (.str "-5") = .val (-5)
  decide

/-- C4 amended: for a positive threshold, the minimum-spend rule of
`filter_jobs` coerces the resolved total spend to a number by stripping `,`
and `$` (the result may be negative for negatively-signed inputs), treats a
null, falsy, or unparsable value as 0, and rejects exactly when the coerced
value is below the threshold; in particular a null or unparsable spend with
a positive threshold is always rejected. -/
theorem c4_spend_rule_amended (job client ts : JVal) (ms : ℚ) (hms : 0 < ms)
    (hc : pyGetD job "client" (.obj []) = .ok client)
    (hts : resolveSpentFilter client = .ok ts) :
    spendRule ms job = .ok (! pyFloatLt (coerceSpend (orZero ts)) ms)
    ∧ (ts = .null → spendRule ms job = .ok false)
    ∧ (∀ s, ts = .str s → pyFloat (removeChar '$' (removeChar ',' s)) = none →
        spendRule ms job = .ok false) := by
  have key : spendRule ms job = .ok (! pyFloatLt (coerceSpend (orZero ts)) ms) := by
    unfold spendRule
    rw [if_pos hms, hc, ok_bind, hts, ok_bind]
    rfl
  refine ⟨key, ?_, ?_⟩
  · rintro rfl
    rw [key]
    have h0 : coerceSpend (orZero .null) = .val 0 := rfl
    rw [h0]
    simp [pyFloatLt, hms]
  · rintro s rfl hbad
    rw [key]
    by_cases hs : s = ""
    · subst hs
      have h0 : coerceSpend (orZero (.str "")) = .val 0 := rfl
      rw [h0]
      simp [pyFloatLt, hms]
    · have h1 : orZero (.str s) = .str s := by simp [orZero, pyTruthy, hs]
      have h0 : coerceSpend (.str s) = .val 0 := by
        unfold coerceSpend
        simp [pyStr, hbad]
      rw [h1, h0]
      simp [pyFloatLt, hms]

/-- C4 witness: the amended rule evaluated on a record with an unparsable
spend string and threshold 1000 — the record is rejected. -/
theorem c4_spend_rule_amended_witness :
    spendRule 1000 (.obj [("client", .obj [("totalSpent", .str "N/A")])]) = .ok false :=
  ((c4_spend_rule_amended (.obj [("client", .obj [("totalSpent", .str "N/A")])])
      (.obj [("totalSpent", .str "N/A")]) (.str "N/A") 1000 (by norm_num)
      rfl rfl).2.2) "N/A" rfl (by decide)

/-- A record whose proposals field is a list containing a bucket phrase. -/
def c6job : JVal := .obj [("proposals", .arr [.str "50+"])]

/-- C6 counterexample: the claim says the competition rule rejects exactly
when the resolved proposal count is a numeric value ≥ 15 or a *string*
containing a bucket phrase, and that all other resolved values pass. The
code applies `str()` to the resolved value before the phrase test, so the
list value `["50+"]` — neither a number nor a string — renders as `['50+']`,
matches the phrase `"50+"`, and the record is rejected. -/
theorem c6_container_phrase_counterexample :
    resolveProposals c6job = .ok (.arr [.str "50+"])
    ∧ filter_jobs [c6job] false 0 [] 1 0 = .ok []
    ∧ competitionPass (.arr [.str "50+"]) = false
    ∧ (∀ q, JVal.arr [.str "50+"] ≠ .num q)
    ∧ (∀ s, JVal.arr [.str "50+"] ≠ .str s) := by
  refine ⟨rfl, rfl, rfl, ?_, ?_⟩
  · intro q h; cases h
  · intro s h; cases h

/-- C6 amended: the competition rule of `filter_jobs` rejects exactly when
the resolved proposal count (first `proposals`, then `proposalCount`) is
truthy and either its Python string rendering `str(value)` contains one of
the phrases "15 to 20", "20 to 50", "50+" (for a string value this is the
string itself, but a container whose rendering contains a phrase also
matches) or it is a numeric value ≥ 15; absent or falsy values never cause
rejection by this rule. -/
theorem c6_competition_rule_amended (v : JVal) :
    competitionPass v = false ↔
      (pyTruthy v = true ∧
        ((rejectPhrases.any fun p => strContains (pyStr v) p) = true
          ∨ ∃ q, v = .num q ∧ 15 ≤ q)) := by
  unfold competitionPass
  by_cases ht : pyTruthy v = true
  · rw [if_pos ht]
    by_cases hp : (rejectPhrases.any fun p => strContains (pyStr v) p) = true
    · rw [if_pos hp]
      simp [ht, hp]
    · rw [if_neg hp]
      cases v with
      | num q =>
        simp only [decide_eq_false_iff_not, not_lt, ht, true_and]
        constructor
        · intro h
          exact Or.inr ⟨q, rfl, h⟩
        · rintro (h | ⟨q2, hq, hle⟩)
          · exact absurd h hp
          · cases hq
            exact hle
      | null => simp [ht, hp]
      | bool b => simp [ht, hp]
      | str s => simp [ht, hp]
      | arr xs => simp [ht, hp]
      | obj kvs => simp [ht, hp]
  · rw [if_neg ht]
    simp [ht]

@[simp] theorem pyGet_obj (kvs : List (String × JVal)) (k : String) :
    pyGet (.obj kvs) k = .ok ((lookupKV kvs k).getD .null) := rfl

@[simp] theorem pyGetD_obj (kvs : List (String × JVal)) (k : String) (d : JVal) :
    pyGetD (.obj kvs) k d = .ok ((lookupKV kvs k).getD d) := rfl

@[simp] theorem pyInKey_obj (kvs : List (String × JVal)) (k : String) :
    pyInKey k (.obj kvs) = .ok (lookupKV kvs k).isSome := rfl

/-- A successful defaulted attribute read means the receiver is a dict. -/
theorem pyGetD_ok_shape {job : JVal} {k : String} {d c : JVal}
    (h : pyGetD job k d = .ok c) : ∃ kvs, job = .obj kvs := by
  cases job with
  | obj kvs => exact ⟨kvs, rfl⟩
  | null => cases h
  | bool b => cases h
  | num q => cases h
  | str s => cases h
  | arr xs => cases h

/-- A truthiness-or of two successful reads succeeds. -/
theorem pyOr2_ok {x : JVal} {b : Except PyErr JVal} (hb : ∃ v, b = .ok v) :
    ∃ v, pyOr2 (.ok x) b = .ok v := by
  unfold pyOr2
  rw [ok_bind]
  by_cases h : pyTruthy x = true
  · rw [if_pos h]
    exact ⟨x, rfl⟩
  · rw [if_neg h]
    exact hb

/-- The posted-date resolution of line 160 always succeeds on a dict. -/
theorem resolvePostedDate_obj_ok (kvs : List (String × JVal)) :
    ∃ v, resolvePostedDate (.obj kvs) = .ok v := by
  unfold resolvePostedDate
  simp only [pyGet_obj]
  exact pyOr2_ok (pyOr2_ok ⟨_, rfl⟩)

/-- C5: when verified payment is required, `filter_jobs` rejects a record
unless the disjunction of line 174 holds — the top-level
`isPaymentVerified` flag is truthy, or the client's `paymentMethodVerified`
is exactly `True`, or the client's `paymentVerificationStatus` equals
`"VERIFIED"` — the reads being tried in that fixed order; a record
satisfying any disjunct passes the rule. -/
theorem c5_payment_rule (job client ipv pmv pvs : JVal)
    (hc : pyGetD job "client" (.obj []) = .ok client)
    (hipv : pyGet job "isPaymentVerified" = .ok ipv)
    (hpmv : pyGet client "paymentMethodVerified" = .ok pmv)
    (hpvs : pyGet client "paymentVerificationStatus" = .ok pvs) :
    paymentVerifiedCheck job =
      .ok (pyTruthy ipv || isTrueLit pmv || eqStrLit pvs "VERIFIED")
    ∧ (∀ ms els, paymentVerifiedCheck job = .ok false →
        jobPass true ms els job = .ok false) := by
  constructor
  · unfold paymentVerifiedCheck
    rw [hc, ok_bind, hipv, ok_bind]
    by_cases t1 : pyTruthy ipv = true
    · rw [if_pos t1, t1]
      simp only [Bool.true_or]
      rfl
    · have t1f : pyTruthy ipv = false := by simpa using t1
      rw [if_neg t1, hpmv, ok_bind, t1f]
      by_cases t2 : isTrueLit pmv = true
      · rw [if_pos t2, t2]
        simp only [Bool.true_or, Bool.false_or, Bool.or_true]
        rfl
      · have t2f : isTrueLit pmv = false := by simpa using t2
        rw [if_neg t2, hpvs, ok_bind, t2f]
        simp only [Bool.false_or]
        rfl
  · intro ms els hfalse
    obtain ⟨kvs, rfl⟩ := pyGetD_ok_shape hc
    obtain ⟨pv, hpv⟩ := resolvePostedDate_obj_ok kvs
    unfold jobPass
    rw [hpv, ok_bind,
      show paymentStep true (JVal.obj kvs) = paymentVerifiedCheck (JVal.obj kvs) from rfl,
      hfalse, ok_bind]
    rfl

/-- A record whose client has `paymentMethodVerified = True`. -/
def c5job : JVal := .obj [("client", .obj [("paymentMethodVerified", .bool true)])]

/-- C5 witness: the rule evaluated on a record verified through the
client's boolean flag — it passes. -/
theorem c5_payment_rule_witness : paymentVerifiedCheck c5job = .ok true := by
  have h := (c5_payment_rule c5job (.obj [("paymentMethodVerified", .bool true)])
    .null (.bool true) .null rfl rfl rfl rfl).1
  exact h.trans (by rfl)

/-- C7: with a non-empty allow-set, the experience rule rejects exactly
when the resolved level (top-level `experienceLevel`, else the vendor's) is
a non-empty string with no case-insensitive match among the (stripped,
lowercased) allowed levels; an absent level or an empty allow-set never
rejects. -/
theorem c7_experience_rule (els : List String) (job jl : JVal)
    (hjl : resolveJobLevel job = .ok jl) :
    (∀ s, jl = .str s → s ≠ "" → els ≠ [] →
        expRule els jl =
          .ok ((els.map fun l => pyToLower (pyStrip l)).contains (pyToLower s)))
    ∧ (jl = .null → expRule els jl = .ok true)
    ∧ (els = [] → expRule els jl = .ok true) := by
  refine ⟨?_, ?_, ?_⟩
  · rintro s rfl hs hne
    cases els with
    | nil => exact absurd rfl hne
    | cons e es =>
      have ht : pyTruthy (.str s) = true := by simp [pyTruthy, hs]
      unfold expRule
      rw [if_pos ht]
      rfl
  · rintro rfl
    cases els with
    | nil => rfl
    | cons e es => rfl
  · rintro rfl
    rfl

/-- C7 witness: level `"EXPERT"` matches allow-set entry `"Expert "` after
stripping and lowercasing, so the rule passes. -/
theorem c7_experience_rule_witness :
    expRule ["Expert ", "entry"] (.str "EXPERT") = .ok true := by
  have h := (c7_experience_rule ["Expert ", "entry"]
    (.obj [("experienceLevel", .str "EXPERT")]) (.str "EXPERT") rfl).1
    "EXPERT" rfl (by decide) (by decide)
  exact h.trans (by rfl)

/-- The apply-URL template never yields the empty string. -/
theorem applyUrlTemplate_ne_empty (s : String) : applyUrlTemplate s ≠ "" := by
  intro h
  have h2 := congrArg String.data h
  simp [applyUrlTemplate, String.data_append] at h2

/-- Inversion of a successful transform: how the identifier and URL fields
of the output relate to the reads of lines 239-249. -/
theorem transform_job_inv {job : JVal} {nj : NormalizedJob}
    (h : transform_job job = .ok nj) :
    ∃ id0 job_url jid,
      pyOr2 (pyGet job "id") (pyGet job "ciphertext") = .ok id0
      ∧ pyOr2 (pyGet job "url") (pyGet job "externalLink") = .ok job_url
      ∧ deriveJobId id0 job_url = .ok jid
      ∧ nj.job_id = jid
      ∧ nj.job_url = job_url
      ∧ nj.apply_url = (if pyTruthy jid then applyUrlTemplate (pyStr jid) else "") := by
  unfold transform_job at h
  simp only [bind_ok_iff, pure_ok_iff] at h
  obtain ⟨client, hc, id0, hid, job_url, hurl, jid, hjid, title, hti, descr, hde, skills, hsk,
    budget, hbu, hr, hhr, jt, hjt, el, hel, loc, hloc, cc, hcc, cts, hcts, chh, hch, pc, hpc,
    pd, hpd, hrec⟩ := h
  subst hrec
  exact ⟨id0, job_url, jid, hid, hurl, hjid, rfl, rfl, rfl⟩

@[simp] theorem pyInKey_str (s k : String) : pyInKey k (.str s) = .ok (strContains s k) := rfl

/-- When the direct identifier is falsy and the URL is not a string
containing `"~"`, a successful derivation leaves the identifier unchanged. -/
theorem deriveJobId_keeps_falsy {id0 job_url jid : JVal}
    (h : deriveJobId id0 job_url = .ok jid)
    (hf : pyTruthy id0 = false)
    (hu : ∀ u, job_url = .str u → strContains u "~" = false) :
    jid = id0 := by
  unfold deriveJobId at h
  rw [hf] at h
  simp only [Bool.not_false, Bool.true_and] at h
  by_cases ht : pyTruthy job_url = true
  · rw [if_pos ht] at h
    cases job_url with
    | str u =>
      rw [pyInKey_str, ok_bind, hu u rfl] at h
      simp only [Bool.false_eq_true, if_false] at h
      exact (pure_ok_iff.mp h).symm
    | null => exact absurd ht (by decide)
    | num q =>
      rw [show pyInKey "~" (.num q) = .error .typeError from rfl, error_bind] at h
      cases h
    | bool b =>
      rw [show pyInKey "~" (.bool b) = .error .typeError from rfl, error_bind] at h
      cases h
    | arr xs =>
      rw [show pyInKey "~" (.arr xs)
            = .ok (xs.any fun x => match x with | .str s => s = "~" | _ => false) from rfl,
        ok_bind] at h
      split at h <;> exact (pure_ok_iff.mp h).symm
    | obj kvs =>
      rw [show pyInKey "~" (.obj kvs) = .ok (lookupKV kvs "~").isSome from rfl, ok_bind] at h
      split at h <;> exact (pure_ok_iff.mp h).symm
  · rw [if_neg ht] at h
    exact (pure_ok_iff.mp h).symm

/-- C3: in every NormalizedJob produced by `transform_job`, `apply_url` is
non-empty iff `job_id` is non-empty (truthy, i.e. for the string-typed
identifiers of the data model a non-empty string); when non-empty,
`apply_url` is exactly the fixed template parameterized by `job_id`; and
when no identifier is derivable — the direct `id`/`ciphertext` resolution
is falsy and the resolved URL is not a string containing `"~"` — `job_id`
is empty (falsy). -/
theorem c3_apply_url_iff_job_id (job : JVal) (nj : NormalizedJob)
    (h : transform_job job = .ok nj) :
    ((nj.apply_url ≠ "") ↔ pyTruthy nj.job_id = true)
    ∧ (pyTruthy nj.job_id = true → nj.apply_url = applyUrlTemplate (pyStr nj.job_id))
    ∧ (∀ idv urlv, pyOr2 (pyGet job "id") (pyGet job "ciphertext") = .ok idv →
        pyOr2 (pyGet job "url") (pyGet job "externalLink") = .ok urlv →
        pyTruthy idv = false →
        (∀ u, urlv = .str u → strContains u "~" = false) →
        pyTruthy nj.job_id = false) := by
  obtain ⟨id0, job_url, jid, hid, hurl, hjid, hj, hju, happ⟩ := transform_job_inv h
  refine ⟨?_, ?_, ?_⟩
  · rw [happ, hj]
    by_cases ht : pyTruthy jid = true
    · rw [if_pos ht, ht]
      simp [applyUrlTemplate_ne_empty]
    · have htf : pyTruthy jid = false := by simpa using ht
      rw [if_neg ht, htf]
      simp
  · intro ht
    rw [hj] at ht
    rw [happ, if_pos ht, hj]
  · intro idv urlv hidv hurlv hf hu
    have e1 : id0 = idv := by
      have := hid.symm.trans hidv
      injection this
    have e2 : job_url = urlv := by
      have := hurl.symm.trans hurlv
      injection this
    have hkeep : jid = id0 := by
      refine deriveJobId_keeps_falsy hjid ?_ ?_
      · rw [e1]
        exact hf
      · rw [e2]
        exact hu
    rw [hj, hkeep, e1]
    exact hf

/-- A record with only a direct string identifier. -/
def c3job : JVal := .obj [("id", .str "abc")]

/-- The NormalizedJob `transform_job` produces for `c3job`. -/
def c3out : NormalizedJob :=
  { job_id := .str "abc", title := .null, description := .null, skills := .arr [],
    budget := .null, hourly_rate := .null, job_type := .null, experience_level := .null,
    client_country := .null, client_total_spent := .null, client_hires := .null,
    proposal_count := .null, posted_date := .null, job_url := .null,
    apply_url := applyUrlTemplate "abc" }

/-- C3 witness: the equivalence evaluated on a concrete transformed record
with a non-empty identifier. -/
theorem c3_apply_url_iff_job_id_witness :
    ((c3out.apply_url ≠ "") ↔ pyTruthy c3out.job_id = true)
    ∧ c3out.apply_url = applyUrlTemplate (pyStr c3out.job_id) := by
  have h := c3_apply_url_iff_job_id c3job c3out rfl
  exact ⟨h.1, h.2.1 (by decide)⟩

/-- Prefixing with `"~"` never yields the empty string. -/
theorem tilde_append_ne_empty (t : String) : ("~" ++ t) ≠ "" := by
  intro h
  have h2 := congrArg String.data h
  simp [String.data_append] at h2

/-- C8: a record with no direct identifier (`id` and `ciphertext` keys
absent) whose `url` is a string containing `"~"` gets its `job_id` derived
as the substring after the last `"~"` re-prefixed with `"~"`, and a
populated (non-empty) `apply_url` built from it. -/
theorem c8_url_derived_job_id (kvs : List (String × JVal)) (u : String) (nj : NormalizedJob)
    (hid : lookupKV kvs "id" = none) (hciph : lookupKV kvs "ciphertext" = none)
    (hurl : lookupKV kvs "url" = some (.str u)) (ht : strContains u "~" = true)
    (htr : transform_job (.obj kvs) = .ok nj) :
    nj.job_id = .str ("~" ++ (pySplit u '~').getLastD "")
    ∧ nj.apply_url = applyUrlTemplate ("~" ++ (pySplit u '~').getLastD "")
    ∧ nj.apply_url ≠ "" := by
  obtain ⟨id0, job_url, jid, hid2, hurl2, hjid, hj, hju, happ⟩ := transform_job_inv htr
  have hune : u ≠ "" := by
    intro he
    subst he
    exact absurd ht (by decide)
  have hid0 : id0 = .null := by
    have hcalc : pyOr2 (pyGet (.obj kvs) "id") (pyGet (.obj kvs) "ciphertext") = .ok .null := by
      rw [pyGet_obj, pyGet_obj, hid, hciph]
      rfl
    have h2 := hcalc.symm.trans hid2
    injection h2 with h3
    exact h3.symm
  have hurl0 : job_url = .str u := by
    have hcalc : pyOr2 (pyGet (.obj kvs) "url") (pyGet (.obj kvs) "externalLink")
        = .ok (.str u) := by
      unfold pyOr2
      rw [pyGet_obj, hurl]
      simp only [Option.getD_some, ok_bind]
      rw [if_pos (show pyTruthy (.str u) = true by simp [pyTruthy, hune])]
      rfl
    have h2 := hcalc.symm.trans hurl2
    injection h2 with h3
    exact h3.symm
  have hder : deriveJobId .null (.str u) = .ok (.str ("~" ++ (pySplit u '~').getLastD "")) := by
    unfold deriveJobId
    have hcond : (! pyTruthy JVal.null && pyTruthy (.str u)) = true := by
      simp [pyTruthy, hune]
    rw [if_pos hcond, pyInKey_str, ok_bind, ht]
    rfl
  have hjv : jid = .str ("~" ++ (pySplit u '~').getLastD "") := by
    rw [hid0, hurl0] at hjid
    have h2 := hder.symm.trans hjid
    injection h2 with h3
    exact h3.symm
  have hjs : nj.job_id = .str ("~" ++ (pySplit u '~').getLastD "") := hj.trans hjv
  refine ⟨hjs, ?_, ?_⟩
  · rw [happ, hjv]
    have htt : pyTruthy (JVal.str ("~" ++ (pySplit u '~').getLastD "")) = true := by
      simp [pyTruthy, tilde_append_ne_empty]
    rw [if_pos htt]
    rfl
  · rw [happ, hjv]
    have htt : pyTruthy (JVal.str ("~" ++ (pySplit u '~').getLastD "")) = true := by
      simp [pyTruthy, tilde_append_ne_empty]
    rw [if_pos htt]
    exact applyUrlTemplate_ne_empty _

/-- The record of the spec scenario: no `id`, no `ciphertext`, only a URL
containing `"~"`. -/
def c8job : JVal := .obj [("url", .str "https://x/jobs/~0198abc")]

/-- The NormalizedJob `transform_job` produces for `c8job`. -/
def c8out : NormalizedJob :=
  { job_id := .str "~0198abc", title := .null, description := .null, skills := .arr [],
    budget := .null, hourly_rate := .null, job_type := .null, experience_level := .null,
    client_country := .null, client_total_spent := .null, client_hires := .null,
    proposal_count := .null, posted_date := .null,
    job_url := .str "https://x/jobs/~0198abc",
    apply_url := applyUrlTemplate "~0198abc" }

/-- C8 witness: the spec's scenario record — `url = "https://x/jobs/~0198abc"`
yields `job_id = "~0198abc"` and a populated `apply_url`. -/
theorem c8_url_derived_job_id_witness :
    c8out.job_id = .str "~0198abc"
    ∧ c8out.apply_url = "https://www.upwork.com/nx/proposals/job/~0198abc/apply/"
    ∧ c8out.apply_url ≠ "" := by
  have h := c8_url_derived_job_id [("url", .str "https://x/jobs/~0198abc")]
    "https://x/jobs/~0198abc" c8out rfl rfl rfl (by decide) rfl
  exact ⟨h.1.trans (by rfl), h.2.1.trans (by rfl), h.2.2⟩

/-- One-step tightening of a filter configuration, tight configuration
listed first: raising the minimum spend, narrowing a non-empty experience
allow-set (a non-empty subset of a non-empty set, or a non-empty set
replacing the empty allow-all set), or enabling verified payment, with the
other parameters fixed. -/
inductive Tightens : Bool → ℚ → List String → Bool → ℚ → List String → Prop where
  | spend (vp : Bool) (msT msL : ℚ) (els : List String) (h : msL ≤ msT) :
      Tightens vp msT els vp msL els
  | exper (vp : Bool) (ms : ℚ) (elsT elsL : List String) (hT : elsT ≠ [])
      (h : elsL = [] ∨ elsT ⊆ elsL) :
      Tightens vp ms elsT vp ms elsL
  | pay (ms : ℚ) (els : List String) :
      Tightens true ms els false ms els

/-- The spend comparison is monotone in the threshold. -/
theorem pyFloatLt_mono {c : PyFloat} {msL msT : ℚ} (h : msL ≤ msT)
    (hlt : pyFloatLt c msL = true) : pyFloatLt c msT = true := by
  cases c with
  | nan => cases hlt
  | inf => cases hlt
  | ninf => rfl
  | val q =>
    simp only [pyFloatLt, decide_eq_true_eq] at hlt ⊢
    exact lt_of_lt_of_le hlt h

/-- A record surviving the spend rule at a high threshold survives it at
any lower one. -/
theorem spendRule_mono {msT msL : ℚ} (h : msL ≤ msT) {job : JVal}
    (hT : spendRule msT job = .ok true) : spendRule msL job = .ok true := by
  by_cases h0 : msL > 0
  · have h0T : msT > 0 := lt_of_lt_of_le h0 h
    unfold spendRule at hT ⊢
    rw [if_pos h0T] at hT
    rw [if_pos h0]
    simp only [bind_ok_iff, pure_ok_iff] at hT ⊢
    obtain ⟨client, hc, ts, hts, hval⟩ := hT
    refine ⟨client, hc, ts, hts, ?_⟩
    by_cases hlt : pyFloatLt (coerceSpend (orZero ts)) msL = true
    · have := pyFloatLt_mono h hlt
      rw [this] at hval
      cases hval
    · simp only [Bool.not_eq_true] at hlt
      rw [hlt]
      rfl
  · unfold spendRule
    rw [if_neg h0]
    rfl

/-- A level surviving a non-empty allow-set survives any superset of it
(and the empty allow-all set). -/
theorem expRule_mono {elsT elsL : List String} {jl : JVal} (hne : elsT ≠ [])
    (hsub : elsL = [] ∨ elsT ⊆ elsL)
    (hT : expRule elsT jl = .ok true) : expRule elsL jl = .ok true := by
  rcases hsub with rfl | hsub
  · cases elsT with
    | nil => rfl
    | cons e es => rfl
  · cases elsT with
    | nil => exact absurd rfl hne
    | cons e es =>
      cases elsL with
      | nil => rfl
      | cons f fs =>
        unfold expRule at hT ⊢
        by_cases htr : pyTruthy jl = true
        · rw [if_pos htr] at hT ⊢
          simp only [bind_ok_iff, pure_ok_iff] at hT ⊢
          obtain ⟨lv, hlv, hmem⟩ := hT
          refine ⟨lv, hlv, ?_⟩
          have hmem2 : lv ∈ (e :: es).map (fun l => pyToLower (pyStrip l)) := by
            simpa using hmem
          obtain ⟨l0, hl0, hl0e⟩ := List.mem_map.mp hmem2
          have : lv ∈ (f :: fs).map (fun l => pyToLower (pyStrip l)) :=
            List.mem_map.mpr ⟨l0, hsub hl0, hl0e⟩
          simpa using this
        · rw [if_neg htr] at hT ⊢
          exact hT

/-- Inversion of an admitting pass through the rule chain: every rule was
evaluated and passed. -/
theorem jobPass_ok_true_inv {vp : Bool} {ms : ℚ} {els : List String} {job : JVal}
    (h : jobPass vp ms els job = .ok true) :
    ∃ pd jl props,
      resolvePostedDate job = .ok pd
      ∧ paymentStep vp job = .ok true
      ∧ spendRule ms job = .ok true
      ∧ resolveJobLevel job = .ok jl
      ∧ expRule els jl = .ok true
      ∧ resolveProposals job = .ok props
      ∧ competitionPass props = true := by
  unfold jobPass at h
  simp only [bind_ok_iff, pure_ok_iff] at h
  obtain ⟨pd, hpd, pay, hpay, h2⟩ := h
  cases pay with
  | false => exact absurd (pure_ok_iff.mp h2) (by decide)
  | true =>
    simp only [Bool.not_true, Bool.false_eq_true, if_false] at h2
    simp only [bind_ok_iff, pure_ok_iff] at h2
    obtain ⟨spend, hspend, h3⟩ := h2
    cases spend with
    | false => exact absurd (pure_ok_iff.mp h3) (by decide)
    | true =>
      simp only [Bool.not_true, Bool.false_eq_true, if_false] at h3
      simp only [bind_ok_iff, pure_ok_iff] at h3
      obtain ⟨jl, hjl, exp2, hexp, h4⟩ := h3
      cases exp2 with
      | false => exact absurd (pure_ok_iff.mp h4) (by decide)
      | true =>
        simp only [Bool.not_true, Bool.false_eq_true, if_false] at h4
        simp only [bind_ok_iff, pure_ok_iff] at h4
        obtain ⟨props, hprops, hcomp⟩ := h4
        exact ⟨pd, jl, props, hpd, hpay, hspend, hjl, hexp, hprops, hcomp⟩

/-- A job admitted under the tighter configuration is admitted under the
looser one, whenever both evaluations complete. -/
theorem jobPass_mono {vpT vpL : Bool} {msT msL : ℚ} {elsT elsL : List String}
    (ht : Tightens vpT msT elsT vpL msL elsL) (job : JVal) {bL : Bool}
    (hT : jobPass vpT msT elsT job = .ok true)
    (hL : jobPass vpL msL elsL job = .ok bL) : bL = true := by
  obtain ⟨pd, jl, props, hpd, hpay, hspend, hjl, hexp, hprops, hcomp⟩ :=
    jobPass_ok_true_inv hT
  have hloose : jobPass vpL msL elsL job = .ok true := by
    cases ht with
    | spend vp msT2 msL2 els hle =>
      unfold jobPass
      rw [hpd, ok_bind, hpay, ok_bind]
      simp only [Bool.not_true, Bool.false_eq_true, if_false]
      rw [spendRule_mono hle hspend, ok_bind]
      simp only [Bool.not_true, Bool.false_eq_true, if_false]
      rw [hjl, ok_bind, hexp, ok_bind]
      simp only [Bool.not_true, Bool.false_eq_true, if_false]
      rw [hprops, ok_bind, hcomp]
      rfl
    | exper vp ms elsT2 elsL2 hne hsub =>
      unfold jobPass
      rw [hpd, ok_bind, hpay, ok_bind]
      simp only [Bool.not_true, Bool.false_eq_true, if_false]
      rw [hspend, ok_bind]
      simp only [Bool.not_true, Bool.false_eq_true, if_false]
      rw [hjl, ok_bind, expRule_mono hne hsub hexp, ok_bind]
      simp only [Bool.not_true, Bool.false_eq_true, if_false]
      rw [hprops, ok_bind, hcomp]
      rfl
    | pay ms els =>
      unfold jobPass
      rw [hpd, ok_bind,
        show paymentStep false job = Except.ok true from rfl, ok_bind]
      simp only [Bool.not_true, Bool.false_eq_true, if_false]
      rw [hspend, ok_bind]
      simp only [Bool.not_true, Bool.false_eq_true, if_false]
      rw [hjl, ok_bind, hexp, ok_bind]
      simp only [Bool.not_true, Bool.false_eq_true, if_false]
      rw [hprops, ok_bind, hcomp]
      rfl
  have h2 := hloose.symm.trans hL
  injection h2 with h3
  exact h3.symm

/-- The loop preserves admission under loosening, job by job, keeping the
original order: the tight result is a sublist of the loose result. -/
theorem filterLoop_mono {vpT vpL : Bool} {msT msL : ℚ} {elsT elsL : List String}
    (ht : Tightens vpT msT elsT vpL msL elsL) :
    ∀ jobs admT admL, filterLoop vpT msT elsT jobs = .ok admT →
      filterLoop vpL msL elsL jobs = .ok admL → admT.Sublist admL := by
  intro jobs
  induction jobs with
  | nil =>
    intro admT admL h1 h2
    unfold filterLoop at h1 h2
    have e1 := pure_ok_iff.mp h1
    have e2 := pure_ok_iff.mp h2
    rw [← e1, ← e2]
  | cons j js ih =>
    intro admT admL h1 h2
    unfold filterLoop at h1 h2
    simp only [bind_ok_iff, pure_ok_iff] at h1 h2
    obtain ⟨bT, hbT, tT, htT, hres1⟩ := h1
    obtain ⟨bL, hbL, tL, htL, hres2⟩ := h2
    have hsub := ih tT tL htT htL
    rw [← hres1, ← hres2]
    cases hbTc : bT with
    | true =>
      rw [hbTc] at hbT
      have hbLt : bL = true := jobPass_mono ht j hbT hbL
      rw [hbLt]
      simp only [if_true]
      exact hsub.cons₂ j
    | false =>
      simp only [hbTc, Bool.false_eq_true, if_false]
      cases bL with
      | true =>
        simp only [if_true]
        exact hsub.cons j
      | false =>
        simp only [Bool.false_eq_true, if_false]
        exact hsub

/-- C9: for every job list and every pair of configurations related by
tightening exactly one threshold — raising the minimum spend, narrowing the
experience allow-set, or enabling verified payment — whenever both runs of
`filter_jobs` complete, the records admitted under the tighter
configuration form a sublist (hence a subset, in original order) of those
admitted under the looser one. -/
theorem c9_filter_monotone (jobs : List JVal) (vpT vpL : Bool) (msT msL : ℚ)
    (elsT elsL : List String) (d now : ℤ) (admT admL : List JVal)
    (ht : Tightens vpT msT elsT vpL msL elsL)
    (h1 : filter_jobs jobs vpT msT elsT d now = .ok admT)
    (h2 : filter_jobs jobs vpL msL elsL d now = .ok admL) :
    admT.Sublist admL :=
  filterLoop_mono ht jobs admT admL h1 h2

/-- C9 witness: raising the minimum spend from 0 to 5 shrinks the admitted
set for a concrete one-record list from the whole list to the empty list. -/
theorem c9_filter_monotone_witness :
    filter_jobs [JVal.obj []] false 5 [] 1 0 = .ok []
    ∧ filter_jobs [JVal.obj []] false 0 [] 1 0 = .ok [JVal.obj []]
    ∧ List.Sublist ([] : List JVal) [JVal.obj []] :=
  ⟨rfl, rfl,
    c9_filter_monotone [JVal.obj []] false false 5 0 [] [] 1 0 [] [JVal.obj []]
      (Tightens.spend false 5 0 [] (by norm_num)) rfl rfl⟩

end Upwork
